import Mathlib

/-!
Verification of `src/pymks/mks_localization_model.py` (class `MKSLocalizationModel`).

The model state and the control flow of `fit` / `predict` / `coeff` /
`resize_coeff` are embedded shallowly.  Array shapes are `List ℕ` (numpy
shape tuples).  The external collaborators (the basis classes in
`pymks/bases`, the `Filter` class in `pymks/filter.py`, scipy's `lstsq`)
are not under `src/`; they enter either as abstract parameters or as
definitions modelled from the spec, each marked in its doc comment.
-/

namespace Pymks

/-- Modelled from the spec: the basis contract (external collaborator,
`pymks/bases`, not under `src/`).  An instance carries its class (an
identifier standing for `__class__`), `n_states`, `domain`, and possibly
further unattached state (e.g. the `_axes` attribute set by hand in the
`resize_coeff` doctest), recorded opaquely as `extra`. -/
structure Basis where
  cls : ℕ
  n_states : ℕ
  domain : ℤ × ℤ
  extra : ℕ
  deriving DecidableEq, Repr

/-- Modelled from the spec: constructing a fresh basis instance
`basis.__class__(n_states, domain)` (source line 109 calls the class with
exactly these two arguments); a fresh instance carries no unattached
state. -/
def Basis.create (cls : ℕ) (n_states : ℕ) (domain : ℤ × ℤ) : Basis :=
  { cls := cls, n_states := n_states, domain := domain, extra := 0 }

/-- Modelled from the spec: the Filter contract (external collaborator,
`pymks/filter.py`, not under `src/`).  We record the constructor
arguments passed at source lines 125-126: the frequency kernel's shape
(`Fkernel[None].shape`), the basis, the output-shape argument
(`y[1:].shape` in the source) and `n_jobs`. -/
structure Filter where
  FkernelShape : List ℕ
  basis : Basis
  outputShape : List ℕ
  n_jobs : ℕ
  deriving DecidableEq, Repr

/-- The exceptions raised by `MKSLocalizationModel`.  The two
`RuntimeError`s are raised explicitly (source lines 114, 116), the
`ValueError` is numpy's error when `reshape` does not preserve the
element count, and the `AttributeError`s arise in `predict` (explicit
check, line 167) and in `coeff` (reading the missing `_filter`
attribute, line 133). -/
inductive MksError where
  | runtimeErrorShapeY
  | runtimeErrorShapeMismatch
  | valueErrorCannotReshape
  | attributeErrorFitBeforePredict
  | attributeErrorNoFilter
  deriving DecidableEq, Repr

/-- The attributes of an `MKSLocalizationModel` instance.  `_filter` is
`none` until `fit` has stored a `Filter` (in Python the attribute simply
does not exist before the first `fit`). -/
structure Model where
  basis : Basis
  n_states : ℕ
  domain : ℤ × ℤ
  n_jobs : ℕ
  _filter : Option Filter
  deriving DecidableEq, Repr

/-- `MKSLocalizationModel.__init__(basis, n_states=None, n_jobs=1)`
(source lines 66-81): `n_states` defaults to `basis.n_states` when
`None`, `domain` is read from the basis. -/
def Model.init (basis : Basis) (n_states : Option ℕ) (n_jobs : ℕ) : Model :=
  { basis := basis
    n_states := match n_states with
                | none => basis.n_states
                | some k => k
    domain := basis.domain
    n_jobs := n_jobs
    _filter := none }

/-- numpy's element count of a shape: the product of the axis lengths. -/
def shapeProd (s : List ℕ) : ℕ := s.prod

/-- The guard of `_reshape_feature` (source line 265):
`X.shape[-1] // 2 + 1 == size[-1] and X.ndim - 1 == len(size)`. -/
abbrev reshapeCond (Xsh size : List ℕ) : Prop :=
  Xsh.getLast?.map (fun l => l / 2 + 1) = size.getLast? ∧
    Xsh.length = size.length + 1

/-- The shape `_reshape_feature` reshapes to (source lines 265-267):
`(X.shape[0],) + size`, except that when `reshapeCond` holds the
target is the array's own current shape (`size = X.shape[1:]`, so
`new_shape = X.shape`).  The `[]` branch is unreachable for arrays with
a sample axis; theorems assume a nonempty shape. -/
def reshapeTargetShape (Xsh size : List ℕ) : List ℕ :=
  if reshapeCond Xsh size then Xsh
  else
    match Xsh with
    | [] => size
    | n :: _ => n :: size

/-- Shape-level `_reshape_feature` followed by numpy's reshape validity
check: `X.reshape(new_shape)` succeeds exactly when the element count is
preserved, raising `ValueError` otherwise. -/
def reshapeShapeE (Xsh size : List ℕ) : Except MksError (List ℕ) :=
  let tgt := reshapeTargetShape Xsh size
  if shapeProd tgt = shapeProd Xsh then .ok tgt else .error .valueErrorCannotReshape

/-- Source lines 113-126, after the optional reshape: the two shape
validations, then discretization/transform/solve and construction of the
`Filter`.  Shape level: `basis.discretize` appends a trailing
`n_states` axis (basis contract, spec §3), the transforms preserve
shape, so `Fkernel = np.zeros(FX.shape[1:])` has shape
`X.shape[1:] + (n_states,)` and `Fkernel[None]` prepends a singleton.
The `Filter`'s third constructor argument is `y[1:].shape`, i.e. the
sample-axis length reduced by one (numpy clamps at 0) with the spatial
axes kept. -/
def fitValidated (m1 : Model) (Xs ys : List ℕ) : Model × Option MksError :=
  if ys.length ≤ 1 then (m1, some .runtimeErrorShapeY)
  else if ys ≠ Xs then (m1, some .runtimeErrorShapeMismatch)
  else
    match ys with
    | [] => (m1, some .runtimeErrorShapeY)
    | n :: rest =>
      ({ m1 with
          _filter := some
            { FkernelShape := 1 :: (Xs.tail ++ [m1.n_states])
              basis := m1.basis
              outputShape := (n - 1) :: rest
              n_jobs := m1.n_jobs } }, none)

/-- Source lines 110-126, the part of `fit` after the basis has been
replaced: the optional reshapes of `y` and then `X` (lines 110-112, in
that order, each raising numpy's `ValueError` when the element count is
not preserved), then validation and fitting on the reshaped shapes. -/
def fitAfterBasis (m1 : Model) (X y : List ℕ) (size : Option (List ℕ)) :
    Model × Option MksError :=
  match size with
  | none => fitValidated m1 X y
  | some s =>
    if shapeProd (reshapeTargetShape y s) ≠ shapeProd y then
      (m1, some .valueErrorCannotReshape)
    else if shapeProd (reshapeTargetShape X s) ≠ shapeProd X then
      (m1, some .valueErrorCannotReshape)
    else fitValidated m1 (reshapeTargetShape X s) (reshapeTargetShape y s)

/-- `MKSLocalizationModel.fit(X, y, size=None)` at the state/shape level
(source lines 109-126).  Line 109 replaces `self.basis` with a fresh
instance of the caller basis's class, built from the model's
`(n_states, domain)`, *before* anything else; the rest is
`fitAfterBasis`.  The returned model is the post-state, also when an
exception is raised (second component `some e`). -/
def fitShape (m : Model) (X y : List ℕ) (size : Option (List ℕ)) :
    Model × Option MksError :=
  fitAfterBasis { m with basis := Basis.create m.basis.cls m.n_states m.domain }
    X y size

/-- `MKSLocalizationModel.predict(X)` at the shape level (source lines
166-171).  Without a stored `_filter` the explicit check raises
`AttributeError` before any computation.  Otherwise `X` is reshaped to
the kernel's spatial shape `_Fkernel.shape[1:-1]`, discretized and
convolved (basis/Filter contracts), and the result is reshaped back to
`X`'s original shape `y_pred_shape`. -/
def predictShape (m : Model) (Xsh : List ℕ) : Except MksError (List ℕ) :=
  match m._filter with
  | none => .error .attributeErrorFitBeforePredict
  | some f =>
    match reshapeShapeE Xsh f.FkernelShape.tail.dropLast with
    | .error e => .error e
    | .ok _ => .ok Xsh

/-- `np.ndindex(shape)`: all multi-indices of `shape` in row-major
order (source line 122 iterates it over `FX.shape[1:-1]`, the
spatial-frequency axes). -/
def ndindex : List ℕ → List (List ℕ)
  | [] => [[]]
  | n :: rest => (List.range n).flatMap fun i => (ndindex rest).map (i :: ·)

/-- The assignment `Fkernel[ijk + s1] = lstsq(...)[0]` (source line 124)
as an update of the kernel, represented as a function from
(frequency bin, local state) to `ℂ`.  `s1 = gbs ijk` is the slice of
local-state indices supplied by `basis._get_basis_slice` (a Python
slice, hence without duplicates); the solution vector `sol ijk` is
scattered into those positions of row `ijk`. -/
def binWriteStep (gbs : List ℕ → List ℕ) (sol : List ℕ → ℕ → ℂ)
    (K : List ℕ → ℕ → ℂ) (ijk : List ℕ) : List ℕ → ℕ → ℂ :=
  fun a s =>
    if a = ijk ∧ s ∈ gbs ijk then sol ijk ((gbs ijk).indexOf s) else K a s

/-- The right-hand side of source line 124:
`lstsq(FX[s0 + ijk + s1], Fy[s0 + ijk])[0]`, the external
linear-least-squares routine (scipy) applied to the columns of
`FX[:, ijk]` selected by the basis slice and to the right-hand side
`Fy[:, ijk]`. -/
def lstsqSolAt (FX : ℕ → List ℕ → ℕ → ℂ) (Fy : ℕ → List ℕ → ℂ)
    (gbs : List ℕ → List ℕ)
    (lstsq : (ℕ → ℕ → ℂ) → (ℕ → ℂ) → (ℕ → ℂ)) (ijk : List ℕ) : ℕ → ℂ :=
  lstsq (fun n p => FX n ijk ((gbs ijk).getD p 0)) (fun n => Fy n ijk)

/-- Source lines 120-124: `Fkernel = np.zeros(FX.shape[1:])` followed by
the loop `for ijk in np.ndindex(FX.shape[1:-1])` writing the per-bin
least-squares solutions into the basis-supplied slice. -/
def fitFkernel (spatial : List ℕ) (FX : ℕ → List ℕ → ℕ → ℂ)
    (Fy : ℕ → List ℕ → ℂ) (gbs : List ℕ → List ℕ)
    (lstsq : (ℕ → ℕ → ℂ) → (ℕ → ℂ) → (ℕ → ℂ)) : List ℕ → ℕ → ℂ :=
  (ndindex spatial).foldl (binWriteStep gbs (lstsqSolAt FX Fy gbs lstsq))
    (fun _ _ => 0)

/-- Bins never written by the loop keep their initial value. -/
lemma foldl_binWriteStep_not_mem (gbs : List ℕ → List ℕ)
    (sol : List ℕ → ℕ → ℂ) :
    ∀ (l : List (List ℕ)) (K : List ℕ → ℕ → ℂ) (a : List ℕ), a ∉ l →
      ∀ s, (l.foldl (binWriteStep gbs sol) K) a s = K a s := by
  intro l
  induction l with
  | nil => intro K a _ s; rfl
  | cons x xs ih =>
    intro K a ha s
    have hax : a ≠ x := fun h => ha (h ▸ List.mem_cons_self x xs)
    have haxs : a ∉ xs := fun h => ha (List.mem_cons_of_mem _ h)
    simp only [List.foldl_cons]
    rw [ih _ a haxs s]
    simp [binWriteStep, hax]

/-- Over a duplicate-free list of bins, the fold writes each visited bin
exactly once: on the slice it holds the solution, elsewhere the initial
value. -/
lemma foldl_binWriteStep_mem (gbs : List ℕ → List ℕ)
    (sol : List ℕ → ℕ → ℂ) :
    ∀ (l : List (List ℕ)) (K : List ℕ → ℕ → ℂ) (a : List ℕ),
      l.Nodup → a ∈ l →
      ∀ s, (l.foldl (binWriteStep gbs sol) K) a s =
        if s ∈ gbs a then sol a ((gbs a).indexOf s) else K a s := by
  intro l
  induction l with
  | nil => intro K a _ ha; cases ha
  | cons x xs ih =>
    intro K a hnd ha s
    simp only [List.foldl_cons]
    rcases List.mem_cons.mp ha with rfl | hmem
    · have hx : a ∉ xs := (List.nodup_cons.mp hnd).1
      rw [foldl_binWriteStep_not_mem gbs sol xs _ a hx s]
      simp [binWriteStep]
    · have hax : a ≠ x := by
        rintro rfl
        exact (List.nodup_cons.mp hnd).1 hmem
      rw [ih _ a (List.nodup_cons.mp hnd).2 hmem s]
      simp [binWriteStep, hax]

/-- `np.ndindex` enumerates each multi-index exactly once. -/
lemma ndindex_nodup (sh : List ℕ) : (ndindex sh).Nodup := by
  induction sh with
  | nil => simp [ndindex]
  | cons n rest ih =>
    simp only [ndindex]
    rw [List.nodup_flatMap]
    constructor
    · intro i _
      exact ih.map (List.cons_injective)
    · refine List.Pairwise.imp ?_ (List.nodup_range n)
      intro i j hij x hx hy
      simp only [List.mem_map] at hx hy
      obtain ⟨a, _, rfl⟩ := hx
      obtain ⟨b, _, hb⟩ := hy
      exact hij (List.head_eq_of_cons_eq hb).symm

/-- The `coeff` property (source lines 128-133):
`self._filter._frequency_2_real(copy=True)[0]`.  Reading `self._filter`
on a never-fitted model raises `AttributeError`.  On a fitted model the
conversion is delegated to the Filter contract; shape level, we return
the stored kernel's shape with the leading sample axis dropped. -/
def coeff (m : Model) : Except MksError (List ℕ) :=
  match m._filter with
  | none => .error .attributeErrorNoFilter
  | some f => .ok f.FkernelShape.tail

/-- A numpy array at the value level: a shape together with the
row-major flat data, whose length is the shape's element count. -/
structure NDArray (α : Type) where
  shape : List ℕ
  data : List α
  hlen : data.length = shapeProd shape

/-- `_reshape_feature(X, size)` (source lines 252-268) at the value
level: compute the target shape (the current shape when the
half-spectrum guard fires, `(X.shape[0],) + size` otherwise) and apply
numpy's `reshape`, which keeps the flat data and fails (`ValueError`,
here `none`) when the element count is not preserved. -/
def _reshape_feature {α : Type} (X : NDArray α) (size : List ℕ) :
    Option (NDArray α) :=
  let tgt := reshapeTargetShape X.shape size
  if h : shapeProd tgt = X.data.length then some ⟨tgt, X.data, h.symm⟩
  else none

/-- The start of the centred block when an axis of length `s` is resized
to length `b`: `(b - s + 1) / 2` zeros in front (from the `resize_coeff`
doctest, rows `5 → 10` put the block at offset 3 and columns `4 → 7` at
offset 2). -/
def padOffset (s b : ℕ) : ℕ := (b - s + 1) / 2

/-- A multi-index of a `d`-dimensional spatial grid of shape `sh`. -/
def SpatialIdx (d : ℕ) (sh : Fin d → ℕ) : Type := ∀ i : Fin d, Fin (sh i)

/-- Modelled from the spec: the real-space effect of `Filter.resize`
(`pymks/filter.py`, not under `src/`; `resize_coeff`, source line 213,
delegates to it).  Per spec §4.4 the kernel's real-space support is
changed to the new size by zero-padding or truncating symmetrically
around the original footprint: along a growing axis the original block
sits at `padOffset` with zeros outside it, along a shrinking axis the
centred block is extracted.  `resizeMapIdx` maps a target-grid index
back to the source-grid index it reads from. -/
def resizeMapIdx (s t ji : ℕ) : ℕ :=
  if s ≤ t then ji - padOffset s t else ji + padOffset t s

/-- Along each axis the mapped index stays inside the source support:
automatic on a shrinking axis, and a consequence of the in-block guard
on a growing axis. -/
lemma resizeMapIdx_lt {s t ji : ℕ} (hj : ji < t)
    (h : s ≤ t → padOffset s t ≤ ji ∧ ji < padOffset s t + s) :
    resizeMapIdx s t ji < s := by
  unfold resizeMapIdx padOffset at *
  by_cases hg : s ≤ t
  · have := h hg
    rw [if_pos hg]
    omega
  · rw [if_neg hg]
    omega

def resizeKernel {d : ℕ} (S T : Fin d → ℕ) (k : SpatialIdx d S → ℂ) :
    SpatialIdx d T → ℂ :=
  fun j =>
    if h2 : ∀ i, S i ≤ T i →
        padOffset (S i) (T i) ≤ (j i : ℕ) ∧
          (j i : ℕ) < padOffset (S i) (T i) + S i then
      k fun i =>
        ⟨resizeMapIdx (S i) (T i) (j i : ℕ), resizeMapIdx_lt (j i).isLt (h2 i)⟩
    else 0

/-- Modelled from the spec: `Filter.resize` itself inverse-transforms
the stored frequency kernel, resizes the real-space support, and
re-transforms forward (spec §4.4).  The transform pair is abstract;
`FinvS` is the inverse transform at the source shape and `FfwdT` the
forward transform at the target shape. -/
def filterResize {d : ℕ} (S T : Fin d → ℕ)
    (FfwdT : (SpatialIdx d T → ℂ) → (SpatialIdx d T → ℂ))
    (FinvS : (SpatialIdx d S → ℂ) → (SpatialIdx d S → ℂ))
    (K : SpatialIdx d S → ℂ) : SpatialIdx d T → ℂ :=
  FfwdT (resizeKernel S T (FinvS K))

/-- Central zero-padding followed by central truncation restores the
original real-space kernel. -/
lemma resizeKernel_trunc_pad {d : ℕ} (S B : Fin d → ℕ)
    (hSB : ∀ i, S i ≤ B i) (k : SpatialIdx d S → ℂ) :
    resizeKernel B S (resizeKernel S B k) = k := by
  funext j
  unfold resizeKernel
  have houter : ∀ i, B i ≤ S i →
      padOffset (B i) (S i) ≤ (j i : ℕ) ∧
        (j i : ℕ) < padOffset (B i) (S i) + B i := by
    intro i hi
    have hs := hSB i
    have := (j i).isLt
    unfold padOffset
    omega
  rw [dif_pos houter]
  have hinner : ∀ i, S i ≤ B i →
      padOffset (S i) (B i) ≤ resizeMapIdx (B i) (S i) (j i : ℕ) ∧
        resizeMapIdx (B i) (S i) (j i : ℕ) < padOffset (S i) (B i) + S i := by
    intro i hi
    have := (j i).isLt
    have hs := hSB i
    unfold resizeMapIdx padOffset
    by_cases hg : B i ≤ S i
    · rw [if_pos hg]
      omega
    · rw [if_neg hg]
      omega
  rw [dif_pos hinner]
  congr 1
  funext i
  apply Fin.ext
  simp only
  have := (j i).isLt
  have hs := hSB i
  unfold resizeMapIdx padOffset
  by_cases hg : B i ≤ S i
  · rw [if_pos hg, if_pos (hs.antisymm hg ▸ le_refl _)]
    omega
  · rw [if_neg hg, if_pos hs]
    have hlt : ¬ B i ≤ S i := hg
    omega

/-! ## Helper lemmas about `fit` -/

/-- Both validation errors and the success branch leave the basis of the
state they were given untouched. -/
lemma fitValidated_fst_basis (m1 : Model) (Xs ys : List ℕ) :
    (fitValidated m1 Xs ys).1.basis = m1.basis := by
  unfold fitValidated
  split_ifs
  · rfl
  · rfl
  · cases ys <;> rfl

lemma fitAfterBasis_fst_basis (m1 : Model) (X y : List ℕ)
    (size : Option (List ℕ)) :
    (fitAfterBasis m1 X y size).1.basis = m1.basis := by
  cases size with
  | none => exact fitValidated_fst_basis m1 X y
  | some s =>
    simp only [fitAfterBasis]
    split_ifs
    · rfl
    · rfl
    · exact fitValidated_fst_basis m1 _ _

/-- On an error, validation returns the state it was given. -/
lemma fitValidated_fst_of_err {m1 : Model} {Xs ys : List ℕ} {e : MksError}
    (h : (fitValidated m1 Xs ys).2 = some e) :
    (fitValidated m1 Xs ys).1 = m1 := by
  unfold fitValidated at h ⊢
  split_ifs at h ⊢
  · rfl
  · rfl
  · cases ys with
    | nil => rfl
    | cons n rest => simp at h

lemma fitAfterBasis_fst_of_err {m1 : Model} {X y : List ℕ}
    {size : Option (List ℕ)} {e : MksError}
    (h : (fitAfterBasis m1 X y size).2 = some e) :
    (fitAfterBasis m1 X y size).1 = m1 := by
  cases size with
  | none => exact fitValidated_fst_of_err h
  | some s =>
    simp only [fitAfterBasis] at h ⊢
    split_ifs at h ⊢
    · rfl
    · rfl
    · exact fitValidated_fst_of_err h

/-- The reshape target of an array with a sample axis is never the empty
shape. -/
lemma reshapeTargetShape_ne_nil {Xsh size : List ℕ} (h : Xsh ≠ [])
    (hs : size ≠ []) : reshapeTargetShape Xsh size ≠ [] := by
  unfold reshapeTargetShape
  split_ifs
  · exact h
  · cases Xsh with
    | nil => exact hs
    | cons n rest => simp

/-- The two explicit validations of `fit` (source lines 113-116) fail
exactly when `y` has a single axis or the shapes differ. -/
lemma fitValidated_err_iff (m1 : Model) (Xs ys : List ℕ) (hy : ys ≠ []) :
    (fitValidated m1 Xs ys).2 ≠ none ↔ ys.length = 1 ∨ Xs ≠ ys := by
  unfold fitValidated
  rcases ys with _ | ⟨n, rest⟩
  · exact absurd rfl hy
  · split_ifs with h1 h2
    · refine iff_of_true (by simp) (Or.inl ?_)
      simp only [List.length_cons] at h1 ⊢
      omega
    · exact iff_of_true (by simp) (Or.inr (Ne.symm h2))
    · refine iff_of_false (by simp) ?_
      push_neg at h2
      rintro (hl | hne)
      · simp only [List.length_cons] at h1 hl
        omega
      · exact hne h2.symm

/-! ## The claims -/

/-- C10: `MKSLocalizationModel(basis, n_states, n_jobs)` takes
`n_states` from the basis exactly when the argument is `None`, and
always copies `domain` from the basis. -/
theorem init_n_states_and_domain (b : Basis) (ns : Option ℕ) (nj : ℕ) :
    (Model.init b ns nj).n_states =
        (match ns with | none => b.n_states | some k => k) ∧
      (Model.init b ns nj).domain = b.domain :=
  ⟨rfl, rfl⟩

/-- C5: `predict` on a freshly constructed, never-fitted model raises
the `AttributeError` "fit() method must be run before predict()"
immediately, before any reshape, discretization or convolution. -/
theorem predict_before_fit_raises (b : Basis) (ns : Option ℕ) (nj : ℕ)
    (Xsh : List ℕ) :
    predictShape (Model.init b ns nj) Xsh =
      .error .attributeErrorFitBeforePredict :=
  rfl

/-- C9: reading the `coeff` property on a never-fitted model raises an
`AttributeError` (the internal `_filter` attribute does not exist)
rather than returning a value. -/
theorem coeff_before_fit_attribute_error (b : Basis) (ns : Option ℕ)
    (nj : ℕ) :
    coeff (Model.init b ns nj) = .error .attributeErrorNoFilter :=
  rfl

/-- C8: every call to `fit` first replaces the model's basis with a
fresh instance of the same class built from the model's
`(n_states, domain)`; that fresh instance (not the caller's object) is
what the model holds afterwards, whatever the outcome, and the whole
run of `fit` depends on the caller-supplied basis only through its
class. -/
theorem fit_recreates_basis (m : Model) (b' : Basis) (X y : List ℕ)
    (size : Option (List ℕ)) (hcls : b'.cls = m.basis.cls) :
    (fitShape m X y size).1.basis =
        Basis.create m.basis.cls m.n_states m.domain ∧
      fitShape { m with basis := b' } X y size = fitShape m X y size := by
  constructor
  · exact fitAfterBasis_fst_basis _ X y size
  · simp [fitShape, hcls]

/-- C8 witness. -/
theorem fit_recreates_basis_w :
    (⟨1, 7, (0, 1), 5⟩ : Basis).cls =
        (Model.init ⟨1, 2, (0, 1), 0⟩ none 4).basis.cls ∧
      ((fitShape (Model.init ⟨1, 2, (0, 1), 0⟩ none 4) [2, 3] [2, 3]
              none).1.basis =
          Basis.create (Model.init ⟨1, 2, (0, 1), 0⟩ none 4).basis.cls
            (Model.init ⟨1, 2, (0, 1), 0⟩ none 4).n_states
            (Model.init ⟨1, 2, (0, 1), 0⟩ none 4).domain ∧
        fitShape { Model.init ⟨1, 2, (0, 1), 0⟩ none 4 with
            basis := ⟨1, 7, (0, 1), 5⟩ } [2, 3] [2, 3] none =
          fitShape (Model.init ⟨1, 2, (0, 1), 0⟩ none 4) [2, 3] [2, 3] none) :=
  ⟨by decide,
    fit_recreates_basis (Model.init ⟨1, 2, (0, 1), 0⟩ none 4) ⟨1, 7, (0, 1), 5⟩
      [2, 3] [2, 3] none (by decide)⟩

/-- C3 (counterexample): `fit` raises a shape error on a rank-1 `y`,
but the model's basis has already been replaced (source line 109 runs
before the validation): constructing the model with `n_states = 3` over
a caller basis with `n_states = 2` and calling `fit` with rank-1 arrays
raises, yet afterwards the basis is no longer the caller's object. -/
theorem fit_shape_error_basis_changed_cex :
    (fitShape (Model.init ⟨0, 2, (0, 1), 0⟩ (some 3) 1) [4] [4]
          none).2.isSome = true ∧
      (fitShape (Model.init ⟨0, 2, (0, 1), 0⟩ (some 3) 1) [4] [4]
            none).1.basis ≠ (⟨0, 2, (0, 1), 0⟩ : Basis) := by
  decide

/-- C3 (amended): when `fit` raises a shape error it aborts with every
attribute unchanged *except* the basis, which has already been replaced
by the fresh instance built from the model's `(n_states, domain)`. -/
theorem fit_error_only_basis_replaced (m : Model) (X y : List ℕ)
    (size : Option (List ℕ)) (post : Model) (e : MksError)
    (h : fitShape m X y size = (post, some e)) :
    post = { m with basis := Basis.create m.basis.cls m.n_states m.domain } := by
  have h1 : (fitShape m X y size).1 = post := by rw [h]
  have h2 : (fitShape m X y size).2 = some e := by rw [h]
  rw [← h1]
  unfold fitShape at h2 ⊢
  exact fitAfterBasis_fst_of_err h2

/-- C3 (amended) witness. -/
theorem fit_error_only_basis_replaced_w :
    fitShape (Model.init ⟨0, 2, (0, 1), 0⟩ (some 3) 1) [4] [4] none =
        ({ basis := Basis.create 0 3 (0, 1), n_states := 3, domain := (0, 1),
            n_jobs := 1, _filter := none },
          some MksError.runtimeErrorShapeY) ∧
      ({ basis := Basis.create 0 3 (0, 1), n_states := 3, domain := (0, 1),
          n_jobs := 1, _filter := none } : Model) =
        { Model.init ⟨0, 2, (0, 1), 0⟩ (some 3) 1 with
            basis := Basis.create
              (Model.init ⟨0, 2, (0, 1), 0⟩ (some 3) 1).basis.cls
              (Model.init ⟨0, 2, (0, 1), 0⟩ (some 3) 1).n_states
              (Model.init ⟨0, 2, (0, 1), 0⟩ (some 3) 1).domain } :=
  ⟨by decide,
    fit_error_only_basis_replaced (Model.init ⟨0, 2, (0, 1), 0⟩ (some 3) 1)
      [4] [4] none
      { basis := Basis.create 0 3 (0, 1), n_states := 3, domain := (0, 1),
        n_jobs := 1, _filter := none }
      MksError.runtimeErrorShapeY (by decide)⟩

/-- C2 (code defect, evaluated): on the module's own `fit` doctest input
(`X = y` of shape `(1, 2, 2)`, no `size`), the `Filter` is constructed
with third argument `y[1:].shape = (0, 2, 2)` — the sample axis reduced
by one but kept — which is not the spatial shape `y.shape[1:] = (2, 2)`
the spec prescribes. -/
theorem fit_filter_output_shape_bug :
    ((fitShape (Model.init ⟨0, 2, (0, 1), 0⟩ none 1) [1, 2, 2] [1, 2, 2]
            none).1._filter).map Filter.outputShape = some [0, 2, 2] ∧
      ([0, 2, 2] : List ℕ) ≠ [1, 2, 2].tail := by
  decide

/-- C4: `fit` raises a shape error exactly when, after the optional
reshape, `y` has a single axis, or the shapes of `X` and `y` differ, or
(when `size` is given) the element count is not preserved by the
reshape's target shape; in every other case validation passes and
fitting proceeds. -/
theorem fit_shape_error_iff (m : Model) (X y : List ℕ)
    (size : Option (List ℕ)) (hX : X ≠ []) (hy : y ≠ [])
    (hsz : ∀ s, size = some s → s ≠ []) :
    (fitShape m X y size).2 ≠ none ↔
      match size with
      | none => y.length = 1 ∨ X ≠ y
      | some s =>
        shapeProd (reshapeTargetShape y s) ≠ shapeProd y ∨
        shapeProd (reshapeTargetShape X s) ≠ shapeProd X ∨
        (reshapeTargetShape y s).length = 1 ∨
        reshapeTargetShape X s ≠ reshapeTargetShape y s := by
  unfold fitShape
  cases size with
  | none => exact fitValidated_err_iff _ X y hy
  | some s =>
    have hs : s ≠ [] := hsz s rfl
    simp only [fitAfterBasis]
    split_ifs with h1 h2
    · exact iff_of_true (by simp) (Or.inl h1)
    · exact iff_of_true (by simp) (Or.inr (Or.inl h2))
    · push_neg at h1 h2
      rw [fitValidated_err_iff _ _ _ (reshapeTargetShape_ne_nil hy hs)]
      constructor
      · rintro (h | h)
        · exact Or.inr (Or.inr (Or.inl h))
        · exact Or.inr (Or.inr (Or.inr h))
      · rintro (h | h | h | h)
        · exact absurd h1 h
        · exact absurd h2 h
        · exact Or.inl h
        · exact Or.inr h

/-- C4 witness. -/
theorem fit_shape_error_iff_w :
    ([2, 3] : List ℕ) ≠ [] ∧ ([2, 4] : List ℕ) ≠ [] ∧
      ((fitShape (Model.init ⟨0, 2, (0, 1), 0⟩ none 1) [2, 3] [2, 4]
            none).2 ≠ none ↔
        ([2, 4] : List ℕ).length = 1 ∨ ([2, 3] : List ℕ) ≠ [2, 4]) :=
  ⟨by decide, by decide,
    fit_shape_error_iff (Model.init ⟨0, 2, (0, 1), 0⟩ none 1) [2, 3] [2, 4]
      none (by decide) (by decide) (fun s h => nomatch h)⟩

/-- C6: `_reshape_feature(X, size)` returns `X` reshaped to
`(X.shape[0],) + size`, except that under the half-spectrum guard
(`X.shape[-1] // 2 + 1 == size[-1]` with matching rank) it returns `X`
with its own current shape unchanged — a strict no-op. -/
theorem reshape_feature_shape_spec {α : Type} (X : NDArray α)
    (size : List ℕ) (hX : X.shape ≠ []) (hs : size ≠ []) :
    (reshapeCond X.shape size → _reshape_feature X size = some X) ∧
      (¬ reshapeCond X.shape size →
        _reshape_feature X size =
          if h : shapeProd (X.shape.headI :: size) = X.data.length then
            some ⟨X.shape.headI :: size, X.data, h.symm⟩
          else none) := by
  cases X with
  | mk sh d hlen =>
    simp only [NDArray.data, NDArray.shape] at *
    constructor
    · intro hc
      have htgt : reshapeTargetShape sh size = sh := by
        unfold reshapeTargetShape
        rw [if_pos hc]
      unfold _reshape_feature
      simp only [htgt]
      rw [dif_pos hlen.symm]
    · intro hc
      have htgt : reshapeTargetShape sh size = sh.headI :: size := by
        unfold reshapeTargetShape
        rw [if_neg hc]
        cases sh with
        | nil => exact absurd rfl hX
        | cons n rest => rfl
      unfold _reshape_feature
      simp only [htgt]

/-- C6 witness. -/
theorem reshape_feature_shape_spec_w :
    ([2, 2] : List ℕ) ≠ [] ∧ ([4] : List ℕ) ≠ [] ∧
      ((reshapeCond [2, 2] [4] →
          _reshape_feature (⟨[2, 2], [10, 11, 12, 13], by decide⟩ : NDArray ℕ)
              [4] = some ⟨[2, 2], [10, 11, 12, 13], by decide⟩) ∧
        (¬ reshapeCond [2, 2] [4] →
          _reshape_feature (⟨[2, 2], [10, 11, 12, 13], by decide⟩ : NDArray ℕ)
              [4] =
            if h : shapeProd (([2, 2] : List ℕ).headI :: [4]) =
                ([10, 11, 12, 13] : List ℕ).length then
              some ⟨([2, 2] : List ℕ).headI :: [4], [10, 11, 12, 13], h.symm⟩
            else none)) :=
  ⟨by decide, by decide,
    reshape_feature_shape_spec (⟨[2, 2], [10, 11, 12, 13], by decide⟩ : NDArray ℕ)
      [4] (by decide) (by decide)⟩

/-- C1: after the per-bin loop of `fit` (source lines 120-124), at
every spatial-frequency multi-index `ijk`, the kernel entries on the
basis-supplied slice hold the least-squares solution of
`FX[:, ijk, slice] · k = Fy[:, ijk]` (the external complex
least-squares routine applied to exactly those columns and that
right-hand side), and every entry of `Fkernel` at that bin outside the
slice is zero. -/
theorem fit_kernel_lstsq_on_slice_zero_elsewhere (spatial : List ℕ)
    (FX : ℕ → List ℕ → ℕ → ℂ) (Fy : ℕ → List ℕ → ℂ)
    (gbs : List ℕ → List ℕ)
    (lstsq : (ℕ → ℕ → ℂ) → (ℕ → ℂ) → (ℕ → ℂ))
    (ijk : List ℕ) (hijk : ijk ∈ ndindex spatial) (s : ℕ) :
    fitFkernel spatial FX Fy gbs lstsq ijk s =
      if s ∈ gbs ijk then
        lstsq (fun n p => FX n ijk ((gbs ijk).getD p 0)) (fun n => Fy n ijk)
          ((gbs ijk).indexOf s)
      else 0 := by
  unfold fitFkernel
  rw [foldl_binWriteStep_mem gbs (lstsqSolAt FX Fy gbs lstsq) (ndindex spatial)
    _ ijk (ndindex_nodup spatial) hijk s]
  rfl

/-- C1 witness. -/
theorem fit_kernel_lstsq_on_slice_zero_elsewhere_w :
    ([1] ∈ ndindex [2]) ∧
      fitFkernel [2] (fun _ _ _ => 0) (fun _ _ => 0) (fun _ => [0])
          (fun _ _ _ => 1) [1] 0 =
        if (0 : ℕ) ∈ ([0] : List ℕ) then (1 : ℂ) else 0 :=
  ⟨by decide,
    fit_kernel_lstsq_on_slice_zero_elsewhere [2] (fun _ _ _ => 0)
      (fun _ _ => 0) (fun _ => [0]) (fun _ _ _ => 1) [1] (by decide) 0⟩

/-- C7: resizing the stored kernel to a pointwise larger spatial size
and then back to the original size restores it exactly: the resize
inverse-transforms, centrally zero-pads (then centrally truncates), and
re-transforms, and with the transforms mutually inverse the padded
block is recovered unchanged. -/
theorem resize_coeff_roundtrip {d : ℕ} (S B : Fin d → ℕ)
    (FfwdS FinvS : (SpatialIdx d S → ℂ) → (SpatialIdx d S → ℂ))
    (FfwdB FinvB : (SpatialIdx d B → ℂ) → (SpatialIdx d B → ℂ))
    (hB : ∀ x, FinvB (FfwdB x) = x) (hS : ∀ x, FfwdS (FinvS x) = x)
    (hSB : ∀ i, S i ≤ B i) (K : SpatialIdx d S → ℂ) :
    filterResize B S FfwdS FinvB (filterResize S B FfwdB FinvS K) = K := by
  unfold filterResize
  rw [hB, resizeKernel_trunc_pad S B hSB, hS]

/-- C7 witness (one axis, `2 → 3 → 2`, identity transform pair). -/
theorem resize_coeff_roundtrip_w :
    (∀ x : SpatialIdx 1 (fun _ => 3) → ℂ, id (id x) = x) ∧
      (∀ x : SpatialIdx 1 (fun _ => 2) → ℂ, id (id x) = x) ∧
      (∀ i : Fin 1, (2 : ℕ) ≤ 3) ∧
      filterResize (fun _ : Fin 1 => 3) (fun _ => 2) id id
          (filterResize (fun _ : Fin 1 => 2) (fun _ => 3) id id
            (fun _ => 1)) = fun _ => 1 :=
  ⟨fun _ => rfl, fun _ => rfl, fun _ => Nat.le_succ 2,
    resize_coeff_roundtrip (fun _ => 2) (fun _ => 3) id id id id
      (fun _ => rfl) (fun _ => rfl) (fun _ => Nat.le_succ 2) (fun _ => 1)⟩

end Pymks
